import Mathlib

/-!
# Response Normalization & Canonicalization Engine — verification

A shallow embedding of the repository's response-normalization core
(`src/utils/normalize_output.py`, with the envelope unwrapper of
`src/utils/normalize_output copy 3.py`), together with theorems settling
the frozen claims about it.

Conventions of the embedding:
* Python values are modelled by `PyVal`; dicts are association lists with
  string keys and insertion-order semantics (`dSet` replaces in place,
  appends fresh keys), matching CPython dict behaviour for the values that
  flow through this engine (JSON/YAML data).
* Fallible Python code (code that can raise) is modelled with
  `Except String`; the string is the exception class and message.
* Library calls external to the repository (`json.loads`,
  `ast.literal_eval`, `yaml.safe_load`, `str.encode/decode`, the two
  `re` patterns) are modelled by executable Lean functions that follow the
  documented behaviour of those libraries on the data this engine handles;
  each such model is marked in its doc comment.
* The filesystem is a path → content association list; `yaml.safe_dump`
  followed by `yaml.safe_load` of the same document is modelled as the
  identity on the stored value, which is faithful for the flat
  string/list/dict records this engine writes.
-/

/-- A Python value as produced by `json.loads` / `yaml.safe_load`:
`None`, booleans, numbers (Python `int` and `float` collapsed into `ℚ`,
which is faithful for the equality and truthiness tests the code performs),
strings, lists, and string-keyed dicts in insertion order. -/
inductive PyVal where
  | null
  | bool (b : Bool)
  | num (q : ℚ)
  | str (s : String)
  | list (xs : List PyVal)
  | dict (kvs : List (String × PyVal))

mutual

/-- Structural (Python `==`) equality on `PyVal`. -/
def pyBeq : PyVal → PyVal → Bool
  | .null, .null => true
  | .bool a, .bool b => a = b
  | .num a, .num b => a = b
  | .str a, .str b => a = b
  | .list xs, .list ys => pyBeqArr xs ys
  | .dict xs, .dict ys => pyBeqObj xs ys
  | _, _ => false

/-- Elementwise equality on Python lists. -/
def pyBeqArr : List PyVal → List PyVal → Bool
  | [], [] => true
  | x :: xs, y :: ys => pyBeq x y && pyBeqArr xs ys
  | _, _ => false

/-- Entrywise equality on Python dicts (as ordered association lists). -/
def pyBeqObj : List (String × PyVal) → List (String × PyVal) → Bool
  | [], [] => true
  | (k, v) :: xs, (l, w) :: ys => k = l && pyBeq v w && pyBeqObj xs ys
  | _, _ => false

end

mutual

theorem pyBeq_iff : ∀ a b : PyVal, pyBeq a b = true ↔ a = b
  | .null, .null => by simp [pyBeq]
  | .bool a, .bool b => by simp [pyBeq]
  | .num a, .num b => by simp [pyBeq]
  | .str a, .str b => by simp [pyBeq]
  | .list xs, .list ys => by
      simp only [pyBeq, pyBeqArr_iff xs ys]
      constructor
      · intro h; rw [h]
      · intro h; cases h; rfl
  | .dict xs, .dict ys => by
      simp only [pyBeq, pyBeqObj_iff xs ys]
      constructor
      · intro h; rw [h]
      · intro h; cases h; rfl
  | .null, .bool _ | .null, .num _ | .null, .str _ | .null, .list _ | .null, .dict _
  | .bool _, .null | .bool _, .num _ | .bool _, .str _ | .bool _, .list _ | .bool _, .dict _
  | .num _, .null | .num _, .bool _ | .num _, .str _ | .num _, .list _ | .num _, .dict _
  | .str _, .null | .str _, .bool _ | .str _, .num _ | .str _, .list _ | .str _, .dict _
  | .list _, .null | .list _, .bool _ | .list _, .num _ | .list _, .str _ | .list _, .dict _
  | .dict _, .null | .dict _, .bool _ | .dict _, .num _ | .dict _, .str _ | .dict _, .list _ => by
      simp [pyBeq]

theorem pyBeqArr_iff : ∀ a b : List PyVal, pyBeqArr a b = true ↔ a = b
  | [], [] => by simp [pyBeqArr]
  | x :: xs, y :: ys => by
      simp [pyBeqArr, pyBeq_iff x y, pyBeqArr_iff xs ys]
  | [], _ :: _ => by simp [pyBeqArr]
  | _ :: _, [] => by simp [pyBeqArr]

theorem pyBeqObj_iff : ∀ a b : List (String × PyVal), pyBeqObj a b = true ↔ a = b
  | [], [] => by simp [pyBeqObj]
  | (k, v) :: xs, (l, w) :: ys => by
      simp [pyBeqObj, pyBeq_iff v w, pyBeqObj_iff xs ys]
  | [], _ :: _ => by simp [pyBeqObj]
  | _ :: _, [] => by simp [pyBeqObj]

end

instance : DecidableEq PyVal := fun a b => decidable_of_iff _ (pyBeq_iff a b)

/-- A Python dict body: ordered association list with string keys. -/
abbrev PyDict := List (String × PyVal)

/-- Key lookup, `d[k]` / `k in d` on a Python dict (first matching entry;
the dicts built by this engine have unique keys). -/
def dGet : PyDict → String → Option PyVal
  | [], _ => Option.none
  | (l, w) :: t, k => if l = k then some w else dGet t k

/-- `d.get(k, dflt)` on a Python dict. -/
def dGetD (d : PyDict) (k : String) (dflt : PyVal) : PyVal :=
  (dGet d k).getD dflt

/-- `d[k] = v` on a Python dict: replace the value of an existing key in
place, otherwise append the new key at the end (insertion order). -/
def dSet : PyDict → String → PyVal → PyDict
  | [], k, v => [(k, v)]
  | (l, w) :: t, k, v => if l = k then (k, v) :: t else (l, w) :: dSet t k v

@[simp] theorem dGet_dSet_self (d : PyDict) (k : String) (v : PyVal) :
    dGet (dSet d k v) k = some v := by
  induction d with
  | nil => simp [dSet, dGet]
  | cons p t ih =>
      obtain ⟨l, w⟩ := p
      by_cases h : l = k <;> simp [dSet, dGet, h, ih]

theorem dGet_dSet_ne (d : PyDict) (k k' : String) (v : PyVal) (h : k' ≠ k) :
    dGet (dSet d k v) k' = dGet d k' := by
  have h2 : k ≠ k' := fun hh => h hh.symm
  induction d with
  | nil => simp [dSet, dGet, h2]
  | cons p t ih =>
      obtain ⟨l, w⟩ := p
      by_cases hl : l = k
      · subst hl
        simp [dSet, dGet, h2]
      · by_cases hl' : l = k' <;> simp [dSet, dGet, hl, hl', h, ih]

/-- Python truthiness (`bool(v)`): `None`, `False`, zero, and empty
strings/lists/dicts are falsy. -/
def pyTruthy : PyVal → Bool
  | .null => false
  | .bool b => b
  | .num q => q ≠ 0
  | .str s => s ≠ ""
  | .list xs => xs ≠ []
  | .dict kvs => kvs ≠ []

/-- `isinstance(v, dict)`. -/
def isDict : PyVal → Bool
  | .dict _ => true
  | _ => false

/-- `isinstance(v, str)`. -/
def isStr : PyVal → Bool
  | .str _ => true
  | _ => false

/-- ASCII lower-casing of one character; the agent names this engine
classifies are ASCII, where Python `str.lower` agrees with this. -/
def asciiLower (c : Char) : Char :=
  if 'A' ≤ c ∧ c ≤ 'Z' then Char.ofNat (c.toNat + 32) else c

/-- `s.lower()` (ASCII). -/
def strLower (s : String) : String :=
  String.mk (s.data.map asciiLower)

/-- Substring test on character lists: `needle in hay` for Python strings. -/
def subMem (needle : List Char) : List Char → Bool
  | [] => needle.isEmpty
  | c :: t => needle.isPrefixOf (c :: t) || subMem needle t

/-- Python `sub in s` (substring containment). -/
def strContains (s sub : String) : Bool :=
  subMem sub.data s.data

/-- The manager-classification heuristic used throughout
`normalize_output.py`:
`any(x in name.lower() for x in ["manager", "mgr"])`. -/
def isManagerName (name : String) : Bool :=
  strContains (strLower name) "manager" || strContains (strLower name) "mgr"

/-! ## Model of `yaml.safe_load` on the flat documents this engine handles -/

/-- Horizontal whitespace for trimming. -/
def isTrimWs (c : Char) : Bool :=
  c = ' ' ∨ c = '\t' ∨ c = '\r' ∨ c = '\n'

/-- Strip leading and trailing whitespace from a character list. -/
def trimChars (cs : List Char) : List Char :=
  ((cs.dropWhile isTrimWs).reverse.dropWhile isTrimWs).reverse

/-- `s.strip()`. -/
def strTrim (s : String) : String :=
  String.mk (trimChars s.data)

/-- Split a character list at newline characters. -/
def splitNl (acc : List Char) : List Char → List (List Char)
  | [] => [acc.reverse]
  | '\n' :: t => acc.reverse :: splitNl [] t
  | c :: t => splitNl (c :: acc) t

/-- Digits-only string to `Nat`. -/
def digitsToNat : List Char → Option Nat
  | [] => Option.none
  | cs =>
      if cs.all Char.isDigit then
        some (cs.foldl (fun a c => a * 10 + (c.toNat - 48)) 0)
      else Option.none

/-- A decimal-integer literal to `ℚ`. -/
def parseIntQ (s : String) : Option ℚ :=
  match s.data with
  | '-' :: rest => (digitsToNat rest).map (fun n => -(n : ℚ))
  | cs => (digitsToNat cs).map (fun n => (n : ℚ))

/-- A YAML scalar: empty/`null`/`~` → `None`, booleans, decimal
integers, anything else a plain string. -/
def yamlScalar (s : String) : PyVal :=
  let t := strTrim s
  if t = "" ∨ t = "null" ∨ t = "~" then .null
  else if t = "true" ∨ t = "True" then .bool true
  else if t = "false" ∨ t = "False" then .bool false
  else match parseIntQ t with
    | some q => .num q
    | Option.none => .str t

/-- Split one line at the first `": "` (or a trailing `":"`) into key text
and value text; lines without such a separator are scalars. -/
def splitKV (acc : List Char) : List Char → Option (String × String)
  | [] => Option.none
  | [':'] => some (String.mk acc.reverse, "")
  | ':' :: ' ' :: rest => some (String.mk acc.reverse, String.mk rest)
  | c :: rest => splitKV (c :: acc) rest

/-- Modelled library call: PyYAML `yaml.safe_load`, restricted to the flat
documents this engine feeds it — the empty document (→ `None`), a single
scalar, and an unindented `key: value` mapping.  Anything outside that
fragment is modelled as a parse error (PyYAML raises, and
`canonicalize_agent_yaml` catches it). -/
def yamlSafeLoad (s : String) : Except String PyVal :=
  let lines := (splitNl [] s.data).filter (fun l => trimChars l ≠ [])
  match lines with
  | [] => .ok .null
  | [l] =>
      match splitKV [] l with
      | some (k, v) => .ok (.dict [(strTrim k, yamlScalar v)])
      | Option.none => .ok (yamlScalar (String.mk l))
  | ls =>
      match ls.mapM (fun l => splitKV [] l) with
      | some kvs => .ok (.dict (kvs.foldl (fun d kv => dSet d (strTrim kv.1) (yamlScalar kv.2)) []))
      | Option.none => .error "yaml.YAMLError"

/-! ## The canonicalizer (`canonicalize_agent_yaml`, normalize_output.py 9-44) -/

/-- `DEFAULT_LLM_CONFIG` (normalize_output.py lines 9-15). -/
def DEFAULT_LLM_CONFIG : PyVal :=
  .dict [("provider_id", .str "OpenAI"),
         ("model", .str "gpt-4o-mini"),
         ("temperature", .num (7/10)),
         ("top_p", .num (9/10)),
         ("response_format", .dict [("type", .str "json")])]

/-- The fixed manager `tool_usage_description` sentence. -/
def mgrToolUsage : String :=
  "The manager orchestrates subordinate role agents and packages outputs."

/-- The `try: parsed = yaml.safe_load(agent.get("yaml", "")) or {}` block:
a non-string `yaml` value or a YAML parse error is caught and replaced by
`{"name": agent.get("name", "unnamed_agent")}`; a falsy parse result
(`None`, empty) becomes `{}`. -/
def loadAgentYaml (akvs : PyDict) : PyVal :=
  match dGetD akvs "yaml" (.str "") with
  | .str s =>
      match yamlSafeLoad s with
      | .ok v => if pyTruthy v then v else .dict []
      | .error _ => .dict [("name", dGetD akvs "name" (.str "unnamed_agent"))]
  | _ => .dict [("name", dGetD akvs "name" (.str "unnamed_agent"))]

/-- `canonicalize_agent_yaml` (normalize_output.py lines 17-44).  Raises
(`Except.error`) exactly where the Python does: calling `.get` on a
non-dict argument, calling `.get` on a non-dict parse result, and calling
`.lower()` on a non-string name. -/
def canonicalize_agent_yaml (agent : PyVal) : Except String PyVal :=
  match agent with
  | .dict akvs =>
    match loadAgentYaml akvs with
    | .dict pkvs =>
      match dGetD pkvs "name" (dGetD akvs "name" (.str "unnamed_agent")) with
      | .str name =>
        Except.ok (.dict [
    ("template_type", .str "single_task"),
    ("name", .str name),
    ("description", dGetD pkvs "description" (.str "")),
    ("agent_role", dGetD pkvs "agent_role" (.str "")),
    ("agent_goal", dGetD pkvs "agent_goal" (.str "")),
    ("agent_instructions", dGetD pkvs "agent_instructions" (.str "")),
    ("features", dGetD pkvs "features" (.list [])),
    ("tools", dGetD pkvs "tools" (.list [])),
    ("tool_usage_description", dGetD pkvs "tool_usage_description"
        (if isManagerName name then .str mgrToolUsage else .str "")),
    ("response_format", dGetD pkvs "response_format" (.dict [("type", .str "json")])),
    ("llm_config", dGetD pkvs "llm_config" DEFAULT_LLM_CONFIG)])
      | _ => Except.error "AttributeError: no attribute lower"
    | _ => Except.error "AttributeError: no attribute get"
  | _ => Except.error "AttributeError: no attribute get"

/-- The entries of the all-defaults canonical record for a given name:
what `canonicalize_agent_yaml` produces when the parsed YAML is empty. -/
def canonMkKvs (name : String) : PyDict :=
  [
    ("template_type", .str "single_task"),
    ("name", .str name),
    ("description", .str ""),
    ("agent_role", .str ""),
    ("agent_goal", .str ""),
    ("agent_instructions", .str ""),
    ("features", .list []),
    ("tools", .list []),
    ("tool_usage_description",
        if isManagerName name then .str mgrToolUsage else .str ""),
    ("response_format", .dict [("type", .str "json")]),
    ("llm_config", DEFAULT_LLM_CONFIG)]

/-- The all-defaults canonical record itself. -/
def canonMk (name : String) : PyVal :=
  .dict (canonMkKvs name)

example : canonicalize_agent_yaml (.dict [("name", .str "Foo")]) = .ok (canonMk "Foo") := by rfl

example : canonicalize_agent_yaml (.dict [("yaml", .str "hello")]) =
    .error "AttributeError: no attribute get" := by rfl

example : canonicalize_agent_yaml (.dict [("yaml", .str "description: bar")]) =
    .ok (.dict [
      ("template_type", .str "single_task"),
      ("name", .str "unnamed_agent"),
      ("description", .str "bar"),
      ("agent_role", .str ""),
      ("agent_goal", .str ""),
      ("agent_instructions", .str ""),
      ("features", .list []),
      ("tools", .list []),
      ("tool_usage_description", .str ""),
      ("response_format", .dict [("type", .str "json")]),
      ("llm_config", DEFAULT_LLM_CONFIG)]) := by rfl

/-! ## Model of `json.loads` and `ast.literal_eval`

One fuel-indexed recursive-descent parser covers both library calls: with
`py = false` it follows the strict JSON grammar of `json.loads` (double
quotes only, lowercase keywords, no control characters inside strings, no
leading zeros); with `py = true` it follows the Python-literal grammar
that `ast.literal_eval` accepts on the data this engine handles (single
or double quotes, `True`/`False`/`None`, permissive escapes).  Keys are
modelled as string literals, which is what every payload this engine can
meet uses.  Later duplicate keys win, as in both libraries. -/

/-- JSON / Python whitespace. -/
def isWsChar (c : Char) : Bool :=
  c = ' ' ∨ c = '\t' ∨ c = '\n' ∨ c = '\r'

/-- Drop leading whitespace. -/
def skipWs (cs : List Char) : List Char :=
  cs.dropWhile isWsChar

/-- The apostrophe character. -/
def squote : Char := Char.ofNat 39

/-- Hexadecimal digit value. -/
def hexVal (c : Char) : Option Nat :=
  if '0' ≤ c ∧ c ≤ '9' then some (c.toNat - 48)
  else if 'a' ≤ c ∧ c ≤ 'f' then some (c.toNat - 87)
  else if 'A' ≤ c ∧ c ≤ 'F' then some (c.toNat - 55)
  else Option.none

/-- Exactly `n` hexadecimal digits. -/
def hexN : Nat → List Char → Option (Nat × List Char)
  | 0, cs => some (0, cs)
  | _ + 1, [] => Option.none
  | n + 1, c :: t =>
      match hexVal c with
      | some d =>
          match hexN n t with
          | some (m, rest) => some (d * 16 ^ n + m, rest)
          | Option.none => Option.none
      | Option.none => Option.none

/-- Octal digit test. -/
def isOctDigit (c : Char) : Bool :=
  '0' ≤ c ∧ c ≤ '7'

/-- Number literal: sign, integer part (no leading zeros), optional
fraction, optional exponent, following the JSON grammar (accepted by both
modelled libraries). -/
def parseNumQ (cs : List Char) : Option (ℚ × List Char) :=
  let (neg, cs1) := match cs with
    | '-' :: t => (true, t)
    | _ => (false, cs)
  let intDigits := cs1.takeWhile Char.isDigit
  let afterInt := cs1.drop intDigits.length
  if intDigits = [] then Option.none
  else if intDigits.length > 1 ∧ intDigits.headI = '0' then Option.none
  else
    let intNat : Nat := intDigits.foldl (fun a c => a * 10 + (c.toNat - 48)) 0
    let (mant, afterFrac) : ℚ × List Char :=
      match afterInt with
      | '.' :: t =>
          let fracDigits := t.takeWhile Char.isDigit
          if fracDigits = [] then ((intNat : ℚ), '.' :: t)
          else
            let fracNat : Nat := fracDigits.foldl (fun a c => a * 10 + (c.toNat - 48)) 0
            ((intNat : ℚ) + (fracNat : ℚ) / (10 : ℚ) ^ fracDigits.length,
             t.drop fracDigits.length)
      | _ => ((intNat : ℚ), afterInt)
    match afterFrac with
    | '.' :: _ => Option.none
    | 'e' :: t => parseNumExp (if neg then -mant else mant) t
    | 'E' :: t => parseNumExp (if neg then -mant else mant) t
    | rest => some (if neg then -mant else mant, rest)
where
  /-- Exponent suffix. -/
  parseNumExp (m : ℚ) (cs : List Char) : Option (ℚ × List Char) :=
    let (eneg, cs1) := match cs with
      | '-' :: t => (true, t)
      | '+' :: t => (false, t)
      | _ => (false, cs)
    let eDigits := cs1.takeWhile Char.isDigit
    if eDigits = [] then Option.none
    else
      let e : Nat := eDigits.foldl (fun a c => a * 10 + (c.toNat - 48)) 0
      let scale : ℚ := (10 : ℚ) ^ e
      some (if eneg then m / scale else m * scale, cs1.drop eDigits.length)

/-- String-literal body after the opening quote `q`.  JSON mode
(`py = false`) rejects raw control characters and unknown escapes;
Python-literal mode keeps unknown escapes verbatim and rejects raw
newlines, as CPython does. -/
def pStr (py : Bool) (q : Char) : Nat → List Char → List Char → Option (String × List Char)
  | 0, _, _ => Option.none
  | _ + 1, _, [] => Option.none
  | fuel + 1, acc, c :: rest =>
      if c = q then some (String.mk acc.reverse, rest)
      else if c = '\\' then
        match rest with
        | [] => Option.none
        | e :: r2 =>
            if e = 'n' then pStr py q fuel ('\n' :: acc) r2
            else if e = 't' then pStr py q fuel ('\t' :: acc) r2
            else if e = 'r' then pStr py q fuel ('\r' :: acc) r2
            else if e = '\\' then pStr py q fuel ('\\' :: acc) r2
            else if e = '"' then pStr py q fuel ('"' :: acc) r2
            else if e = 'b' then pStr py q fuel (Char.ofNat 8 :: acc) r2
            else if e = 'f' then pStr py q fuel (Char.ofNat 12 :: acc) r2
            else if e = '/' ∧ ¬py then pStr py q fuel ('/' :: acc) r2
            else if e = 'u' then
              match hexN 4 r2 with
              | some (n, r3) => pStr py q fuel (Char.ofNat n :: acc) r3
              | Option.none => Option.none
            else if py then
              if e = squote then pStr py q fuel (squote :: acc) r2
              else if e = 'a' then pStr py q fuel (Char.ofNat 7 :: acc) r2
              else if e = 'v' then pStr py q fuel (Char.ofNat 11 :: acc) r2
              else if e = 'x' then
                match hexN 2 r2 with
                | some (n, r3) => pStr py q fuel (Char.ofNat n :: acc) r3
                | Option.none => Option.none
              else if isOctDigit e then
                let ods := (e :: r2.takeWhile isOctDigit).take 3
                let n := ods.foldl (fun a c => a * 8 + (c.toNat - 48)) 0
                pStr py q fuel (Char.ofNat n :: acc) (r2.drop (ods.length - 1))
              else pStr py q fuel (e :: '\\' :: acc) r2
            else Option.none
      else if ¬py ∧ c.toNat < 32 then Option.none
      else if py ∧ c = '\n' then Option.none
      else pStr py q fuel (c :: acc) rest

/-- The parsing task of one step of the recursive-descent parser:
a value, the remaining entries of an object, or the remaining items of an
array (with the entries/items accumulated so far). -/
inductive PTask where
  | val
  | obj (acc : PyDict)
  | arr (acc : List PyVal)

/-- One fuel step of the structured-value grammar shared by the
`json.loads` and `ast.literal_eval` models. -/
def pStep (py : Bool) : Nat → PTask → List Char → Option (PyVal × List Char)
  | 0, _, _ => Option.none
  | fuel + 1, .val, cs0 =>
      match skipWs cs0 with
      | [] => Option.none
      | '{' :: rest =>
          match skipWs rest with
          | '}' :: r2 => some (.dict [], r2)
          | r1 => pStep py fuel (.obj []) r1
      | '[' :: rest =>
          match skipWs rest with
          | ']' :: r2 => some (.list [], r2)
          | r1 => pStep py fuel (.arr []) r1
      | '"' :: rest => (pStr py '"' fuel [] rest).map (fun p => (.str p.1, p.2))
      | c :: rest =>
          if py ∧ c = squote then
            (pStr py squote fuel [] rest).map (fun p => (.str p.1, p.2))
          else if py then
            if "True".data.isPrefixOf (c :: rest) then some (.bool true, (c :: rest).drop 4)
            else if "False".data.isPrefixOf (c :: rest) then some (.bool false, (c :: rest).drop 5)
            else if "None".data.isPrefixOf (c :: rest) then some (.null, (c :: rest).drop 4)
            else (parseNumQ (c :: rest)).map (fun p => (.num p.1, p.2))
          else
            if "true".data.isPrefixOf (c :: rest) then some (.bool true, (c :: rest).drop 4)
            else if "false".data.isPrefixOf (c :: rest) then some (.bool false, (c :: rest).drop 5)
            else if "null".data.isPrefixOf (c :: rest) then some (.null, (c :: rest).drop 4)
            else (parseNumQ (c :: rest)).map (fun p => (.num p.1, p.2))
  | fuel + 1, .obj acc, cs =>
      let keyParse : Option (String × List Char) :=
        match skipWs cs with
        | '"' :: r => pStr py '"' fuel [] r
        | c :: r => if py ∧ c = squote then pStr py squote fuel [] r else Option.none
        | [] => Option.none
      match keyParse with
      | Option.none => Option.none
      | some (k, r1) =>
          match skipWs r1 with
          | ':' :: r2 =>
              match pStep py fuel .val r2 with
              | Option.none => Option.none
              | some (v, r3) =>
                  match skipWs r3 with
                  | ',' :: r4 => pStep py fuel (.obj (dSet acc k v)) r4
                  | '}' :: r4 => some (.dict (dSet acc k v), r4)
                  | _ => Option.none
          | _ => Option.none
  | fuel + 1, .arr acc, cs =>
      match pStep py fuel .val cs with
      | Option.none => Option.none
      | some (v, r1) =>
          match skipWs r1 with
          | ',' :: r2 => pStep py fuel (.arr (acc ++ [v])) r2
          | ']' :: r2 => some (.list (acc ++ [v]), r2)
          | _ => Option.none

/-- Modelled library call: `json.loads` (strict JSON; returns `none`
where the library raises). -/
def jsonLoads (s : String) : Option PyVal :=
  match pStep false (2 * s.data.length + 8) .val s.data with
  | some (v, rest) => if skipWs rest = [] then some v else Option.none
  | Option.none => Option.none

/-- Modelled library call: `ast.literal_eval` on the literal fragment
this engine can meet (returns `none` where the library raises). -/
def pyLiteralEval (s : String) : Option PyVal :=
  match pStep true (2 * s.data.length + 8) .val s.data with
  | some (v, rest) => if skipWs rest = [] then some v else Option.none
  | Option.none => Option.none

example : jsonLoads "\x7b\"a\": 1, \"b\": [true, null, \"x\"]\x7d" =
    some (.dict [("a", .num 1), ("b", .list [.bool true, .null, .str "x"])]) := by rfl

example : (jsonLoads "\x7b\"a\": 0.5\x7d").isSome = true := by rfl

example : jsonLoads "not json" = Option.none := by rfl

example : jsonLoads "\x7b\"a\": 1" = Option.none := by rfl

example : jsonLoads "" = Option.none := by rfl

example : jsonLoads "\x7b\x7d" = some (.dict []) := by rfl

/-! ## Model of `.encode("utf-8").decode("unicode_escape")`

The fallback extractor decodes every matched block with
`b.encode("utf-8").decode("unicode_escape")`.  The codec replaces the
recognised backslash escapes, keeps unrecognised escapes (and a lone
trailing backslash) verbatim, and raises `UnicodeDecodeError` on a
truncated or malformed `\x`/`\u`/`\U` escape and on `\N` (named escapes
are outside the modelled fragment).  The matched blocks this engine
decodes are ASCII, where the `utf-8`/`latin-1` byte round trip of the
codec is the identity on characters. -/

/-- Unicode-escape decoding of a character list. -/
def unescChars : Nat → List Char → Except String (List Char)
  | 0, _ => .error "UnicodeDecodeError"
  | _ + 1, [] => .ok []
  | fuel + 1, c :: rest =>
      if c = '\\' then
      match rest with
      | [] => .ok ['\\']
      | e :: r2 =>
          if e = 'n' then (unescChars fuel r2).map ('\n' :: ·)
          else if e = 't' then (unescChars fuel r2).map ('\t' :: ·)
          else if e = 'r' then (unescChars fuel r2).map ('\r' :: ·)
          else if e = '\\' then (unescChars fuel r2).map ('\\' :: ·)
          else if e = '"' then (unescChars fuel r2).map ('"' :: ·)
          else if e = squote then (unescChars fuel r2).map (squote :: ·)
          else if e = 'a' then (unescChars fuel r2).map (Char.ofNat 7 :: ·)
          else if e = 'b' then (unescChars fuel r2).map (Char.ofNat 8 :: ·)
          else if e = 'f' then (unescChars fuel r2).map (Char.ofNat 12 :: ·)
          else if e = 'v' then (unescChars fuel r2).map (Char.ofNat 11 :: ·)
          else if isOctDigit e then
            let ods := (e :: r2.takeWhile isOctDigit).take 3
            let n := ods.foldl (fun a c => a * 8 + (c.toNat - 48)) 0
            (unescChars fuel (r2.drop (ods.length - 1))).map (Char.ofNat n :: ·)
          else if e = 'x' then
            match hexN 2 r2 with
            | some (n, r3) => (unescChars fuel r3).map (Char.ofNat n :: ·)
            | Option.none => .error "UnicodeDecodeError: truncated \\xXX escape"
          else if e = 'u' then
            match hexN 4 r2 with
            | some (n, r3) => (unescChars fuel r3).map (Char.ofNat n :: ·)
            | Option.none => .error "UnicodeDecodeError: truncated \\uXXXX escape"
          else if e = 'U' then
            match hexN 8 r2 with
            | some (n, r3) => (unescChars fuel r3).map (Char.ofNat n :: ·)
            | Option.none => .error "UnicodeDecodeError: truncated \\UXXXXXXXX escape"
          else if e = 'N' then .error "UnicodeDecodeError: malformed \\N character escape"
          else (unescChars fuel r2).map (e :: '\\' :: ·)
      else (unescChars fuel rest).map (c :: ·)

/-- Modelled library call: `s.encode("utf-8").decode("unicode_escape")`. -/
def unicodeUnescape (s : String) : Except String String :=
  (unescChars (s.data.length + 1) s.data).map (fun cs => String.mk cs)

example : unicodeUnescape "flow_name: X\\nsteps: []" = .ok "flow_name: X\nsteps: []" := by rfl

example : unicodeUnescape "b\\uZZ" = .error "UnicodeDecodeError: truncated \\uXXXX escape" := by rfl

/-! ## Model of the two `re` patterns of the fallback extractor

`re.search(r'"workflow_yaml":\s*"([^"]+)"', raw, re.DOTALL)` and
`re.findall(r'"yaml":\s*"([^"]+)"', raw, re.DOTALL)`.  Both patterns are
a quoted literal key, a colon, optional whitespace, and a non-empty
greedy quoted group; `re.DOTALL` only alters `.`, which the patterns do
not use.  `search` yields the leftmost match; `findall` yields every
non-overlapping match from left to right. -/

/-- Python `\s`. -/
def isReWs (c : Char) : Bool :=
  c = ' ' ∨ c = '\t' ∨ c = '\n' ∨ c = '\r' ∨ c = Char.ofNat 11 ∨ c = Char.ofNat 12

/-- Try to match `"label":\s*"([^"]+)"` at the start of `cs`; on success
return the group and the remainder after the whole match. -/
def matchFieldAt (label : List Char) (cs : List Char) : Option (List Char × List Char) :=
  let pat := '"' :: (label ++ ['"', ':'])
  if pat.isPrefixOf cs then
    let afterWs := (cs.drop pat.length).dropWhile isReWs
    match afterWs with
    | '"' :: r =>
        let grp := r.takeWhile (fun c => c ≠ '"')
        if grp = [] then Option.none
        else
          match r.drop grp.length with
          | '"' :: r2 => some (grp, r2)
          | _ => Option.none
    | _ => Option.none
  else Option.none

/-- `re.search` for the field pattern: leftmost match's group. -/
def reSearchField (label : List Char) : List Char → Option (List Char)
  | [] => Option.none
  | c :: t =>
      match matchFieldAt label (c :: t) with
      | some (g, _) => some g
      | Option.none => reSearchField label t

/-- `re.findall` for the field pattern: all non-overlapping groups in
order of occurrence. -/
def reFindallField (label : List Char) : Nat → List Char → List (List Char)
  | 0, _ => []
  | _ + 1, [] => []
  | fuel + 1, c :: t =>
      match matchFieldAt label (c :: t) with
      | some (g, rest) => g :: reFindallField label fuel rest
      | Option.none => reFindallField label fuel t

/-- `re.search(r'"workflow_yaml":\s*"([^"]+)"', raw, re.DOTALL)`, group 1. -/
def searchWorkflowYaml (raw : String) : Option String :=
  (reSearchField "workflow_yaml".data raw.data).map (fun cs => String.mk cs)

/-- `re.findall(r'"yaml":\s*"([^"]+)"', raw, re.DOTALL)`. -/
def findallYaml (raw : String) : List String :=
  (reFindallField "yaml".data raw.data.length raw.data).map (fun cs => String.mk cs)

example : searchWorkflowYaml "x \x7b\"workflow_yaml\": \"flow_name: X\"\x7d" = some "flow_name: X" := by rfl

example : searchWorkflowYaml "no match here" = Option.none := by rfl

example : findallYaml " \"yaml\": \"a: 1\" junk \"yaml\": \"b: 2\"" = ["a: 1", "b: 2"] := by rfl

example : findallYaml "\"workflow_yaml\": \"flow_name: X\"" = [] := by rfl

/-! ## `normalize_inference_output` (normalize_output.py lines 47-140) -/

/-- `safe_json` (lines 55-59): `json.loads` with every exception
swallowed to `None`. -/
def safeJson (s : String) : Option PyVal :=
  jsonLoads s

/-- `raw.replace("\r", "").replace("\n", "\\n")` (line 67): carriage
returns removed, literal newlines turned into two-character escapes. -/
def fixChars : List Char → List Char
  | [] => []
  | '\r' :: t => fixChars t
  | '\n' :: t => '\\' :: 'n' :: fixChars t
  | c :: t => c :: fixChars t

/-- The escape-fix rewrite of the raw text. -/
def fixStr (s : String) : String :=
  String.mk (fixChars s.data)

/-- One iteration body of the parsing loop (lines 64-68):
`parsed = safe_json(raw)`, and if that is `None` or falsy,
`parsed = safe_json(fixed)`. -/
def parseAttempt (raw : String) : Option PyVal :=
  match safeJson raw with
  | some v => if pyTruthy v then some v else safeJson (fixStr raw)
  | Option.none => safeJson (fixStr raw)

/-- The parsing loop (lines 62-72).  `raw_response` never changes, so
every one of the `max_attempts` iterations recomputes the same value;
the loop therefore collapses to one attempt, followed (when the result
is a dict) by the single `response`-key unwrap and the `break`. -/
def parseLoop (raw : String) : Option PyVal :=
  match parseAttempt raw with
  | Option.none => Option.none
  | some v =>
      match v with
      | .dict kvs =>
          match dGet kvs "response" with
          | some (.str s) =>
              some (match safeJson s with
                    | some w => if pyTruthy w then w else v
                    | Option.none => v)
          | _ => some v
      | _ => some v

/-- `if not parsed or not isinstance(parsed, dict)` (line 77): the regex
fallback runs when the loop produced nothing, a falsy value (including
the empty dict), or a non-dict. -/
def fallbackTaken (raw : String) : Bool :=
  match parseLoop raw with
  | Option.none => true
  | some v => !pyTruthy v || !isDict v

/-- The regex fallback (lines 76-87): start from
`{"raw_string": raw_response}`, add the decoded `workflow_yaml` group if
the pattern matches, then the decoded `yaml` groups as an `agents` list
if any match.  The `unicode_escape` decode can raise, and the code does
not catch it. -/
def regexFallback (raw : String) : Except String PyDict :=
  let d0 : PyDict := [("raw_string", .str raw)]
  let d1E : Except String PyDict :=
    match searchWorkflowYaml raw with
    | some g =>
        match unicodeUnescape g with
        | .ok w => .ok (dSet d0 "workflow_yaml" (.str w))
        | .error e => .error e
    | Option.none => .ok d0
  match d1E with
  | .error e => .error e
  | .ok d1 =>
      match findallYaml raw with
      | [] => .ok d1
      | gs =>
          match gs.mapM (fun g => (unicodeUnescape g).map (fun y => PyVal.dict [("yaml", .str y)])) with
          | .ok agents => .ok (dSet d1 "agents" (.list agents))
          | .error e => .error e

/-- The filesystem: a path → file-content map with overwrite semantics.
Workflow files hold their text as `PyVal.str`; agent files hold the
`yaml.safe_dump`ed record, modelled as the record itself. -/
abbrev Fs := List (String × PyVal)

/-- Lines 90-94: write `parsed["workflow_yaml"]` verbatim to
`out_dir/workflow_<ts>.yaml`.  `f.write` raises `TypeError` when the
value is not a string. -/
def saveWorkflow (parsed : PyDict) (outDir ts : String) (fs : Fs) : Except String Fs :=
  match dGet parsed "workflow_yaml" with
  | some (.str s) => .ok (dSet fs (outDir ++ "/workflow_" ++ ts ++ ".yaml") (.str s))
  | some _ => .error "TypeError: write() argument must be str"
  | Option.none => .ok fs

/-- Python iteration over `parsed["agents"]`: lists yield their items,
strings their characters, dicts their keys; other values raise
`TypeError`. -/
def pyIter : PyVal → Except String (List PyVal)
  | .list xs => .ok xs
  | .str s => .ok (s.data.map (fun c => .str (String.mk [c])))
  | .dict kvs => .ok (kvs.map (fun kv => PyVal.str kv.1))
  | _ => .error "TypeError: object is not iterable"

/-- `canon["name"]` on a canonicalized record.  `canonicalize_agent_yaml`
always returns a dict carrying a string `name`, so the defaulting
branches are unreachable on its outputs. -/
def canonNameStr : PyVal → String
  | .dict kvs =>
      match dGet kvs "name" with
      | some (.str s) => s
      | _ => ""
  | _ => ""

/-- Lines 99-113 for one agent: canonicalize, write the canonical record
to `out_dir/<name>.yaml`, and for non-manager names copy the same file
to the shared `agents/roles/<name>.yaml`. -/
def saveOneAgent (outDir : String) (fs : Fs) (agent : PyVal) : Except String (Fs × PyVal) :=
  match canonicalize_agent_yaml agent with
  | .error e => .error e
  | .ok canon =>
      let name := canonNameStr canon
      let fs1 := dSet fs (outDir ++ "/" ++ name ++ ".yaml") canon
      let fs2 := if isManagerName name then fs1
                 else dSet fs1 ("agents/roles/" ++ name ++ ".yaml") canon
      .ok (fs2, canon)

/-- The `for agent in parsed["agents"]` loop, accumulating
`saved_agents` in order. -/
def saveAgentList (outDir : String) : Fs → List PyVal → Except String (Fs × List PyVal)
  | fs, [] => .ok (fs, [])
  | fs, a :: t =>
      match saveOneAgent outDir fs a with
      | .error e => .error e
      | .ok (fs1, c) =>
          match saveAgentList outDir fs1 t with
          | .error e => .error e
          | .ok (fs2, cs) => .ok (fs2, c :: cs)

/-- Lines 96-113: the whole agents phase (skipped when the key is
absent). -/
def saveAgents (parsed : PyDict) (outDir : String) (fs : Fs) : Except String (Fs × List PyVal) :=
  match dGet parsed "agents" with
  | Option.none => .ok (fs, [])
  | some v =>
      match pyIter v with
      | .error e => .error e
      | .ok items => saveAgentList outDir fs items

/-- `a["name"].lower()` on a saved agent, as the manager/role partition
(line 116) evaluates it: raises on a non-dict, a missing `name`, or a
non-string `name`. -/
def savedName : PyVal → Except String String
  | .dict kvs =>
      match dGet kvs "name" with
      | some (.str s) => .ok s
      | some _ => .error "AttributeError: no attribute lower"
      | Option.none => .error "KeyError: name"
  | _ => .error "TypeError: not subscriptable"

/-- One `managed_agents` entry (lines 127-130): the shared-roles path of
the role and `role.get("description", f"{role['name']} supports the
manager.")`.  `None` models an exception inside the per-manager `try`
(missing or non-string role name). -/
def managedEntry : PyVal → Option PyVal
  | .dict kvs =>
      match dGet kvs "name" with
      | some (.str n) =>
          some (.dict [
            ("file", .str ("agents/roles/" ++ n ++ ".yaml")),
            ("usage_description",
              dGetD kvs "description" (.str (n ++ " supports the manager.")))])
      | _ => Option.none
  | _ => Option.none

/-- Lines 120-138 for one manager: read the just-written manager file,
replace its `managed_agents` with entries for every role, rewrite the
file.  Every exception inside the loop body is caught and logged, so a
failure leaves the filesystem unchanged. -/
def patchOneManager (outDir : String) (fs : Fs) (nm : String) (roles : List PyVal) : Fs :=
  let p := outDir ++ "/" ++ nm ++ ".yaml"
  match dGet fs p with
  | some (.dict d) =>
      match roles.mapM managedEntry with
      | some entries => dSet fs p (.dict (dSet d "managed_agents" (.list entries)))
      | Option.none => fs
  | _ => fs

/-- Lines 115-138: partition the saved agents into managers (name
contains `manager`/`mgr`, case-insensitive) and roles (`a not in
managers`, Python `==` membership), then patch every manager — but only
when both lists are non-empty. -/
def patchManagers (saved : List PyVal) (outDir : String) (fs : Fs) : Except String Fs :=
  match saved.mapM (fun a => (savedName a).map (fun n => (a, n))) with
  | .error e => .error e
  | .ok named =>
      let managers := named.filter (fun p => isManagerName p.2)
      let roles := (named.filter (fun p => !(managers.any (fun m => pyBeq m.1 p.1)))).map Prod.fst
      if managers ≠ [] ∧ roles ≠ [] then
        .ok (managers.foldl (fun f m => patchOneManager outDir f m.2 roles) fs)
      else .ok fs

/-- `normalize_inference_output(raw_response, out_dir)` (lines 47-140).
`ts` is the `datetime.now()` timestamp string; `fs` the filesystem the
call starts from.  Returns the `parsed` result and the final filesystem,
or the uncaught exception. -/
def normalize_inference_output (raw : String) (outDir ts : String) (fs : Fs) :
    Except String (PyVal × Fs) :=
  let parsedE : Except String PyDict :=
    if fallbackTaken raw then regexFallback raw
    else .ok (match parseLoop raw with
              | some (.dict kvs) => kvs
              | _ => [])
  match parsedE with
  | .error e => .error e
  | .ok parsed =>
      match saveWorkflow parsed outDir ts fs with
      | .error e => .error e
      | .ok fs1 =>
          match saveAgents parsed outDir fs1 with
          | .error e => .error e
          | .ok (fs2, saved) =>
              match patchManagers saved outDir fs2 with
              | .error e => .error e
              | .ok fs3 => .ok (.dict parsed, fs3)

example : normalize_inference_output "\x7b\"foo\": 1\x7d" "out" "t0" [] =
    .ok (.dict [("foo", .num 1)], []) := by rfl

example : normalize_inference_output "plain garbage" "out" "t0" [] =
    .ok (.dict [("raw_string", .str "plain garbage")], []) := by rfl

example : normalize_inference_output "\x7b\"workflow_yaml\": \"\\uZZ\"" "out" "t0" [] =
    .error "UnicodeDecodeError: truncated \\uXXXX escape" := by rfl

example : normalize_inference_output "\x7b\x7d" "out" "t0" [] =
    .ok (.dict [("raw_string", .str "\x7b\x7d")], []) := by rfl

/-! ## The envelope unwrapper (`normalize_output copy 3.py` lines 86-134) -/

/-- `try_parse_once` (copy 3, lines 86-103): strict JSON, then JSON on
the escape-fixed text (each accepted only if truthy), then
`ast.literal_eval` (accepted only if it yields a dict, truthy or not). -/
def tryParseOnce (source : String) : Option PyVal :=
  let viaLiteral : Option PyVal :=
    match pyLiteralEval source with
    | some (.dict kvs) => some (.dict kvs)
    | _ => Option.none
  let viaFixed : Option PyVal :=
    match safeJson (fixStr source) with
    | some v => if pyTruthy v then some v else viaLiteral
    | Option.none => viaLiteral
  match safeJson source with
  | some v => if pyTruthy v then some v else viaFixed
  | Option.none => viaFixed

/-- The ordered wrapper-key list of `unwrap` (copy 3, line 108). -/
def wrapperKeys : List String :=
  ["response", "input", "output", "yaml_schema", "workflow_definition"]

/-- The key scan of `unwrap`: the first wrapper key present with a
string value is reparsed (`try_parse_once(inner) or inner`); with a dict
value it is descended into; keys present with any other value fall
through to the next key; no key hit returns the candidate itself. -/
def unwrapFind (kvs : PyDict) : List String → PyVal
  | [] => .dict kvs
  | k :: ks =>
      match dGet kvs k with
      | some (.str s) =>
          (match tryParseOnce s with
           | some v => if pyTruthy v then v else .str s
           | Option.none => .str s)
      | some (.dict d) => .dict d
      | _ => unwrapFind kvs ks

/-- `unwrap(candidate)` (copy 3, lines 105-115): non-dicts are returned
unchanged. -/
def unwrap (candidate : PyVal) : PyVal :=
  match candidate with
  | .dict kvs => unwrapFind kvs wrapperKeys
  | v => v

/-- The unwrapping loop (copy 3, lines 124-130):
`while isinstance(candidate, dict) and unwraps < 5`, breaking when an
unwrap step returns the candidate it was given.  The second argument is
the remaining budget `5 - unwraps`.  Python's identity test
`candidate is before` is modelled as structural equality: the step
returns its argument object itself when no wrapper key fires, and
acyclic parsed data cannot reproduce itself through a strict descent or
a reparse. -/
def unwrapLoop : PyVal → Nat → PyVal
  | c, 0 => c
  | c, n + 1 =>
      if isDict c then
        let c2 := unwrap c
        if c2 = c then c else unwrapLoop c2 n
      else c

/-- `k`-fold application of `unwrap`. -/
def unwrapN : Nat → PyVal → PyVal
  | 0, c => c
  | k + 1, c => unwrapN k (unwrap c)

theorem unwrapLoop_iter : ∀ (n : Nat) (c : PyVal), ∃ k, k ≤ n ∧ unwrapLoop c n = unwrapN k c
  | 0, c => ⟨0, Nat.le_refl 0, rfl⟩
  | n + 1, c => by
      by_cases hd : isDict c
      · by_cases he : unwrap c = c
        · exact ⟨0, Nat.zero_le _, by simp [unwrapLoop, hd, he, unwrapN]⟩
        · obtain ⟨k, hk, heq⟩ := unwrapLoop_iter n (unwrap c)
          exact ⟨k + 1, Nat.succ_le_succ hk, by simp [unwrapLoop, hd, he, heq, unwrapN]⟩
      · exact ⟨0, Nat.zero_le _, by simp [unwrapLoop, hd, unwrapN]⟩

example : unwrapLoop (.dict [("response", .str "\x7b\"response\": \"again\"\x7d")]) 5 =
    .str "again" := by rfl

example : unwrapLoop (.str "already flat") 5 = .str "already flat" := by rfl

/-! ## Claims -/

/-- C8: canonicalizing the mapping `{"name": "Foo"}` yields a record with
name `"Foo"`, `features = []`, `tools = []`,
`response_format = {"type": "json"}`, and `llm_config` populated with the
fixed defaults `provider_id = "OpenAI"`, `model = "gpt-4o-mini"`,
`temperature = 0.7`, `top_p = 0.9` (the default config also carries the
`response_format` sub-entry the source literal contains). -/
theorem claim_C8_default_filling :
    ∃ kvs : PyDict,
      canonicalize_agent_yaml (.dict [("name", .str "Foo")]) = .ok (.dict kvs) ∧
      dGet kvs "name" = some (.str "Foo") ∧
      dGet kvs "features" = some (.list []) ∧
      dGet kvs "tools" = some (.list []) ∧
      dGet kvs "response_format" = some (.dict [("type", .str "json")]) ∧
      dGet kvs "llm_config" = some DEFAULT_LLM_CONFIG ∧
      ∃ lc : PyDict, DEFAULT_LLM_CONFIG = .dict lc ∧
        dGet lc "provider_id" = some (.str "OpenAI") ∧
        dGet lc "model" = some (.str "gpt-4o-mini") ∧
        dGet lc "temperature" = some (.num (7 / 10)) ∧
        dGet lc "top_p" = some (.num (9 / 10)) :=
  ⟨canonMkKvs "Foo", rfl, rfl, rfl, rfl, rfl, rfl, _, rfl, rfl, rfl, rfl, rfl⟩

/-- C9: an agent name containing the substring `manager` or `mgr`
case-insensitively classifies as manager, every other name as role; in
particular `HR_Manager_v1` and `ARCHITECT_MGR` classify as manager and
`Candidate_Screening_Role` as role. -/
theorem claim_C9_manager_classification :
    (∀ name : String, isManagerName name = true ↔
        (strContains (strLower name) "manager" = true ∨
         strContains (strLower name) "mgr" = true)) ∧
    isManagerName "HR_Manager_v1" = true ∧
    isManagerName "ARCHITECT_MGR" = true ∧
    isManagerName "Candidate_Screening_Role" = false :=
  ⟨fun name => by simp [isManagerName, Bool.or_eq_true], rfl, rfl, rfl⟩

/-- C1 (code bug): the totality claim fails — a malformed input whose
regex-fallback `workflow_yaml` group carries a truncated `\uXXXX` escape
makes the uncaught `unicode_escape` decode raise `UnicodeDecodeError`
inside `normalize_inference_output`, so a data error propagates to the
caller (normalize_output.py line 83). -/
theorem claim_C1_normalize_raises_on_malformed :
    normalize_inference_output "\x7b\"workflow_yaml\": \"\\uZZ\"" "out" "t0" [] =
      .error "UnicodeDecodeError: truncated \\uXXXX escape" := by
  rfl

/-- C3 (code bug): the canonicalizer totality claim fails — when the
embedded `yaml` text parses to a non-mapping (here the scalar document
`hello`, which `yaml.safe_load` returns as a truthy string), the
`parsed.get(...)` calls sit outside the `try` block and raise
`AttributeError` (normalize_output.py lines 20 and 24). -/
theorem claim_C3_canonicalize_raises_on_scalar_yaml :
    yamlSafeLoad "hello" = .ok (.str "hello") ∧
    canonicalize_agent_yaml (.dict [("yaml", .str "hello")]) =
      .error "AttributeError: no attribute get" :=
  ⟨rfl, rfl⟩

/-- C5: the envelope-unwrapping loop of `normalize_output copy 3.py`
performs at most 5 unwrap steps — its result is a `k`-fold application
of `unwrap` with `k ≤ 5` — and a candidate that is not a mapping is
returned unchanged.  Termination is witnessed by `unwrapLoop` being a
total structurally recursive function on the remaining budget. -/
theorem claim_C5_unwrap_bounded (c : PyVal) :
    ∃ k, k ≤ 5 ∧ unwrapLoop c 5 = unwrapN k c ∧
      (isDict c = false → unwrapLoop c 5 = c) := by
  obtain ⟨k, hk, heq⟩ := unwrapLoop_iter 5 c
  refine ⟨k, hk, heq, fun hd => ?_⟩
  simp [unwrapLoop, hd]

/-- C5 witness: the bound evaluated on a self-referential envelope whose
`response` key re-encodes another envelope as a string. -/
theorem claim_C5_unwrap_bounded_witness :
    ∃ k, k ≤ 5 ∧
      unwrapLoop (.dict [("response", .str "\x7b\"response\": \"again\"\x7d")]) 5 =
        unwrapN k (.dict [("response", .str "\x7b\"response\": \"again\"\x7d")]) ∧
      (isDict (.dict [("response", .str "\x7b\"response\": \"again\"\x7d")]) = false →
        unwrapLoop (.dict [("response", .str "\x7b\"response\": \"again\"\x7d")]) 5 =
          .dict [("response", .str "\x7b\"response\": \"again\"\x7d")]) :=
  claim_C5_unwrap_bounded (.dict [("response", .str "\x7b\"response\": \"again\"\x7d")])

/-- Re-canonicalizing an all-defaults canonical record is the identity:
the record carries no `yaml` key, so the parse yields the empty mapping
and every field resolves to the same default again, with the name read
from the record itself. -/
theorem canonicalize_canonMk (n : String) :
    canonicalize_agent_yaml (canonMk n) = .ok (canonMk n) := by
  rfl

/-- On a mapping without a `yaml` key, `canonicalize_agent_yaml` returns
the all-defaults record named by the mapping's `name` (or the
`unnamed_agent` placeholder), and raises when that name is not a
string. -/
theorem canonicalize_noYaml (kvs : PyDict) (hy : dGet kvs "yaml" = Option.none) :
    canonicalize_agent_yaml (.dict kvs) =
      match dGetD kvs "name" (.str "unnamed_agent") with
      | .str n => .ok (canonMk n)
      | _ => .error "AttributeError: no attribute lower" := by
  have hload : loadAgentYaml kvs = .dict [] := by
    unfold loadAgentYaml
    unfold dGetD
    rw [hy]
    rfl
  simp only [canonicalize_agent_yaml]
  rw [hload]
  cases hname : dGetD [] "name" (dGetD kvs "name" (.str "unnamed_agent")) <;>
    simp [dGetD, dGet] at hname <;>
    simp [hname, canonMk, canonMkKvs, dGetD, dGet]

/-- C2 counterexample: canonicalization is not idempotent.  The content
fields of a canonical record live at top level, but a second
canonicalization reads content only from the (now absent) embedded
`yaml` string, so the `description` recovered from
`{"yaml": "description: bar"}` is reset to the empty default when the
result is canonicalized again. -/
theorem claim_C2_counterexample :
    canonicalize_agent_yaml (.dict [("yaml", .str "description: bar")]) =
      .ok (.dict [
        ("template_type", .str "single_task"),
        ("name", .str "unnamed_agent"),
        ("description", .str "bar"),
        ("agent_role", .str ""),
        ("agent_goal", .str ""),
        ("agent_instructions", .str ""),
        ("features", .list []),
        ("tools", .list []),
        ("tool_usage_description", .str ""),
        ("response_format", .dict [("type", .str "json")]),
        ("llm_config", DEFAULT_LLM_CONFIG)]) ∧
    canonicalize_agent_yaml (.dict [
        ("template_type", .str "single_task"),
        ("name", .str "unnamed_agent"),
        ("description", .str "bar"),
        ("agent_role", .str ""),
        ("agent_goal", .str ""),
        ("agent_instructions", .str ""),
        ("features", .list []),
        ("tools", .list []),
        ("tool_usage_description", .str ""),
        ("response_format", .dict [("type", .str "json")]),
        ("llm_config", DEFAULT_LLM_CONFIG)]) = .ok (canonMk "unnamed_agent") ∧
    canonMk "unnamed_agent" ≠ .dict [
        ("template_type", .str "single_task"),
        ("name", .str "unnamed_agent"),
        ("description", .str "bar"),
        ("agent_role", .str ""),
        ("agent_goal", .str ""),
        ("agent_instructions", .str ""),
        ("features", .list []),
        ("tools", .list []),
        ("tool_usage_description", .str ""),
        ("response_format", .dict [("type", .str "json")]),
        ("llm_config", DEFAULT_LLM_CONFIG)] :=
  ⟨rfl, rfl, by decide⟩

/-- C2 amended: idempotence holds exactly where the second run finds the
same (empty) parse — for every agent mapping without a `yaml` key,
canonicalization succeeds only with the all-defaults record, and
re-canonicalizing that record is the identity.  In general a second
canonicalization preserves the name but resets every yaml-derived field
to its default. -/
theorem claim_C2_amended (kvs : PyDict) (c : PyVal)
    (hy : dGet kvs "yaml" = Option.none)
    (hc : canonicalize_agent_yaml (.dict kvs) = .ok c) :
    canonicalize_agent_yaml c = .ok c := by
  rw [canonicalize_noYaml kvs hy] at hc
  cases hname : dGetD kvs "name" (.str "unnamed_agent") <;> rw [hname] at hc <;>
    simp only [Except.ok.injEq] at hc <;> try exact absurd hc (by simp)
  case str n =>
    rw [← hc]
    exact canonicalize_canonMk n

/-- C2 witness: the amended idempotence applied to `{"name": "Rolely"}`. -/
theorem claim_C2_amended_witness :
    canonicalize_agent_yaml (canonMk "Rolely") = .ok (canonMk "Rolely") :=
  claim_C2_amended [("name", .str "Rolely")] (canonMk "Rolely") rfl rfl

/-- Every successful regex-fallback result carries the untouched original
text under `raw_string`: the later `workflow_yaml` and `agents`
assignments add fresh keys and cannot displace it. -/
theorem regexFallback_raw_string (raw : String) (d : PyDict)
    (h : regexFallback raw = .ok d) : dGet d "raw_string" = some (.str raw) := by
  have hne1 : ("raw_string" : String) ≠ "workflow_yaml" := by decide
  have hne2 : ("raw_string" : String) ≠ "agents" := by decide
  unfold regexFallback at h
  cases hs : searchWorkflowYaml raw <;> simp only [hs] at h
  case none =>
    cases hf : findallYaml raw <;> simp only [hf] at h
    case nil =>
      cases h
      rfl
    case cons g gs =>
      cases hm : (g :: gs).mapM
          (fun g => (unicodeUnescape g).map (fun y => PyVal.dict [("yaml", .str y)])) <;>
        simp only [hm] at h
      case ok agents =>
        cases h
        rw [dGet_dSet_ne _ _ _ _ hne2]
        rfl
      case error e => cases h
  case some g =>
    cases hu : unicodeUnescape g <;> simp only [hu] at h
    case ok w =>
      cases hf : findallYaml raw <;> simp only [hf] at h
      case nil =>
        cases h
        rw [dGet_dSet_ne _ _ _ _ hne1]
        rfl
      case cons g2 gs =>
        cases hm : (g2 :: gs).mapM
            (fun g => (unicodeUnescape g).map (fun y => PyVal.dict [("yaml", .str y)])) <;>
          simp only [hm] at h
        case ok agents =>
          cases h
          rw [dGet_dSet_ne _ _ _ _ hne2, dGet_dSet_ne _ _ _ _ hne1]
          rfl
        case error e => cases h
    case error e => cases h

/-- C4 counterexample: the output contract fails on the structured path —
`{"foo": 1}` parses as a truthy dict and is returned as-is, containing
none of `workflow_yaml`, `agents`, `raw_string`. -/
theorem claim_C4_counterexample :
    normalize_inference_output "\x7b\"foo\": 1\x7d" "out" "t0" [] =
      .ok (.dict [("foo", .num 1)], []) ∧
    dGet [("foo", .num 1)] "workflow_yaml" = Option.none ∧
    dGet [("foo", .num 1)] "agents" = Option.none ∧
    dGet [("foo", .num 1)] "raw_string" = Option.none :=
  ⟨rfl, rfl, rfl, rfl⟩

/-- C4 amended: on the fallback path the result always contains
`raw_string` bound to the untouched original input (so at least one of
the three contract keys is present there); on the structured path the
result is the parsed mapping itself and need not contain any of the
three keys. -/
theorem claim_C4_amended (raw outDir ts : String) (fs : Fs) (res : PyVal) (fsOut : Fs)
    (hf : fallbackTaken raw = true)
    (hok : normalize_inference_output raw outDir ts fs = .ok (res, fsOut)) :
    ∃ kvs : PyDict, res = .dict kvs ∧ dGet kvs "raw_string" = some (.str raw) := by
  unfold normalize_inference_output at hok
  rw [hf] at hok
  simp only [if_true] at hok
  cases hrf : regexFallback raw <;> simp only [hrf] at hok
  case error e => cases hok
  case ok parsed =>
    cases hw : saveWorkflow parsed outDir ts fs <;> simp only [hw] at hok
    case error e => cases hok
    case ok fs1 =>
      cases ha : saveAgents parsed outDir fs1 <;> simp only [ha] at hok
      case error e => cases hok
      case ok pair =>
        obtain ⟨fs2, saved⟩ := pair
        cases hp : patchManagers saved outDir fs2 <;> simp only [hp] at hok
        case error e => cases hok
        case ok fs3 =>
          simp only [Except.ok.injEq, Prod.mk.injEq] at hok
          exact ⟨parsed, hok.1.symm, regexFallback_raw_string raw parsed hrf⟩

/-- C4 witness: the amended contract evaluated on a plain garbage
string. -/
theorem claim_C4_amended_witness :
    ∃ kvs : PyDict, (PyVal.dict [("raw_string", .str "plain garbage")]) = .dict kvs ∧
      dGet kvs "raw_string" = some (.str "plain garbage") :=
  claim_C4_amended "plain garbage" "out" "t0" []
    (.dict [("raw_string", .str "plain garbage")]) [] rfl rfl

/-- A decode that succeeds on a text with a backslash-free prefix keeps
that prefix verbatim at the front of its output. -/
theorem unescChars_prefix (p : List Char) (hp : ∀ c ∈ p, c ≠ '\\') :
    ∀ (t : List Char) (fuel : Nat) (out : List Char),
      unescChars fuel (p ++ t) = .ok out → ∃ out2, out = p ++ out2 := by
  induction p with
  | nil => exact fun t fuel out h => ⟨out, rfl⟩
  | cons c p ih =>
      intro t fuel out h
      match fuel with
      | 0 => cases h
      | fuel + 1 =>
          have hc : c ≠ '\\' := hp c (List.mem_cons_self c p)
          rw [List.cons_append] at h
          simp only [unescChars, if_neg hc] at h
          cases hrec : unescChars fuel (p ++ t) <;> rw [hrec] at h
          case error e => cases h
          case ok out1 =>
              cases h
              obtain ⟨out2, rfl⟩ := ih (fun d hd => hp d (List.mem_cons_of_mem c hd)) t fuel out1 hrec
              exact ⟨out2, rfl⟩

/-- A needle that appears as a contiguous block inside the haystack is
found by the substring scan. -/
theorem subMem_of_isPrefixOf (x hay : List Char) (h : x.isPrefixOf hay = true) :
    subMem x hay = true := by
  cases hay with
  | nil =>
      cases x with
      | nil => rfl
      | cons c t => simp [List.isPrefixOf] at h
  | cons c t => simp [subMem, h]

theorem subMem_append (pre x suf : List Char) :
    subMem x (pre ++ (x ++ suf)) = true := by
  induction pre with
  | nil =>
      refine subMem_of_isPrefixOf x (x ++ suf) ?_
      rw [List.isPrefixOf_iff_prefix]
      exact List.prefix_append x suf
  | cons c pre ih => simp [subMem, ih]

/-- C7 counterexample: a string that satisfies every premise of the
salvage claim — it fails all structured parse strategies, carries one
quoted `workflow_yaml` field whose value starts with `flow_name: X`, and
two quoted `yaml` fields — yet `normalize_inference_output` returns no
result at all, because the second agent block carries a truncated
`\uXXXX` escape and the uncaught decode raises. -/
theorem claim_C7_counterexample :
    fallbackTaken
      "\"workflow_yaml\": \"flow_name: X\" \"yaml\": \"a: 1\" \"yaml\": \"b\\uZZ\"" = true ∧
    searchWorkflowYaml
      "\"workflow_yaml\": \"flow_name: X\" \"yaml\": \"a: 1\" \"yaml\": \"b\\uZZ\"" =
      some "flow_name: X" ∧
    findallYaml
      "\"workflow_yaml\": \"flow_name: X\" \"yaml\": \"a: 1\" \"yaml\": \"b\\uZZ\"" =
      ["a: 1", "b\\uZZ"] ∧
    normalize_inference_output
      "\"workflow_yaml\": \"flow_name: X\" \"yaml\": \"a: 1\" \"yaml\": \"b\\uZZ\""
      "out" "t0" [] =
      .error "UnicodeDecodeError: truncated \\uXXXX escape" :=
  ⟨rfl, rfl, rfl, rfl⟩

/-- C7 amended: whenever the fallback path runs on a string with one
`workflow_yaml` match whose group starts with the backslash-free text
`flow_name: X` and exactly two `yaml` matches, and the call returns a
result at all (the escape decode can raise, as the counterexample
shows), that result's `workflow_yaml` is the decoded group — which still
contains `X` — and its `agents` list has exactly two entries, in match
order. -/
theorem claim_C7_amended (raw outDir ts X gw g1 g2 : String) (fs : Fs)
    (res : PyVal) (fsOut : Fs)
    (hfb : fallbackTaken raw = true)
    (hwf : searchWorkflowYaml raw = some gw)
    (hstart : ("flow_name: " ++ X).data.isPrefixOf gw.data = true)
    (hnb : ∀ c ∈ ("flow_name: " ++ X).data, c ≠ '\\')
    (hag : findallYaml raw = [g1, g2])
    (hok : normalize_inference_output raw outDir ts fs = .ok (res, fsOut)) :
    ∃ (kvs : PyDict) (w y1 y2 : String),
      res = .dict kvs ∧
      dGet kvs "workflow_yaml" = some (.str w) ∧
      strContains w X = true ∧
      dGet kvs "agents" =
        some (.list [.dict [("yaml", .str y1)], .dict [("yaml", .str y2)]]) := by
  unfold normalize_inference_output at hok
  rw [hfb] at hok
  simp only [if_true] at hok
  cases hrf : regexFallback raw <;> simp only [hrf] at hok
  case error e => cases hok
  case ok parsed =>
    have hres : res = .dict parsed := by
      cases hw : saveWorkflow parsed outDir ts fs <;> simp only [hw] at hok
      case error e => cases hok
      case ok fs1 =>
        cases ha : saveAgents parsed outDir fs1 <;> simp only [ha] at hok
        case error e => cases hok
        case ok pair =>
          obtain ⟨fs2, saved⟩ := pair
          cases hp : patchManagers saved outDir fs2 <;> simp only [hp] at hok
          case error e => cases hok
          case ok fs3 =>
            simp only [Except.ok.injEq, Prod.mk.injEq] at hok
            exact hok.1.symm
    unfold regexFallback at hrf
    rw [hwf, hag] at hrf
    cases hu : unicodeUnescape gw <;> simp only [hu] at hrf
    case error e => cases hrf
    case ok w =>
      simp only [List.mapM_cons, List.mapM_nil] at hrf
      cases hu1 : unicodeUnescape g1 <;> rw [hu1] at hrf
      case error e => cases hrf
      case ok y1 =>
        cases hu2 : unicodeUnescape g2 <;> rw [hu2] at hrf
        case error e => cases hrf
        case ok y2 =>
          simp only [bind, Except.bind, Except.map, pure, Except.pure,
            Except.ok.injEq] at hrf
          subst hrf
          have hcontains : strContains w X = true := by
            unfold unicodeUnescape at hu
            cases he : unescChars (gw.data.length + 1) gw.data <;> rw [he] at hu
            case error e => cases hu
            case ok cs =>
              obtain ⟨rest, hgw⟩ := List.isPrefixOf_iff_prefix.mp hstart
              rw [← hgw] at he
              obtain ⟨out2, rfl⟩ := unescChars_prefix _ hnb rest _ cs he
              have hwdata : w.data = ("flow_name: " ++ X).data ++ out2 := by
                cases hu
                rfl
              unfold strContains
              rw [hwdata, String.data_append, List.append_assoc]
              exact subMem_append _ _ _
          refine ⟨_, w, y1, y2, hres, ?_, hcontains, ?_⟩
          · rw [dGet_dSet_ne _ _ _ _ (by decide)]
            exact dGet_dSet_self _ _ _
          · exact dGet_dSet_self _ _ _

/-- C7 witness: the amended salvage evaluated on a concrete corrupted
response holding one workflow block and two agent blocks. -/
theorem claim_C7_amended_witness :
    ∃ (kvs : PyDict) (w y1 y2 : String),
      (PyVal.dict
        [("raw_string", .str
            "\"workflow_yaml\": \"flow_name: X\" \"yaml\": \"name: Role_A\" \"yaml\": \"name: Role_B\""),
         ("workflow_yaml", .str "flow_name: X"),
         ("agents", .list [.dict [("yaml", .str "name: Role_A")],
                           .dict [("yaml", .str "name: Role_B")]])]) = .dict kvs ∧
      dGet kvs "workflow_yaml" = some (.str w) ∧
      strContains w "X" = true ∧
      dGet kvs "agents" =
        some (.list [.dict [("yaml", .str y1)], .dict [("yaml", .str y2)]]) :=
  claim_C7_amended
    "\"workflow_yaml\": \"flow_name: X\" \"yaml\": \"name: Role_A\" \"yaml\": \"name: Role_B\""
    "out" "t0" "X" "flow_name: X" "name: Role_A" "name: Role_B" []
    (.dict
      [("raw_string", .str
          "\"workflow_yaml\": \"flow_name: X\" \"yaml\": \"name: Role_A\" \"yaml\": \"name: Role_B\""),
       ("workflow_yaml", .str "flow_name: X"),
       ("agents", .list [.dict [("yaml", .str "name: Role_A")],
                         .dict [("yaml", .str "name: Role_B")]])])
    [("out/workflow_t0.yaml", .str "flow_name: X"),
     ("out/Role_A.yaml", canonMk "Role_A"),
     ("agents/roles/Role_A.yaml", canonMk "Role_A"),
     ("out/Role_B.yaml", canonMk "Role_B"),
     ("agents/roles/Role_B.yaml", canonMk "Role_B")]
    rfl rfl rfl (by decide) rfl rfl

/-- Writing two files named after distinct agents inside the same
directory touches distinct paths. -/
theorem pathNe (outDir a b : String) (h : a ≠ b) :
    outDir ++ "/" ++ a ++ ".yaml" ≠ outDir ++ "/" ++ b ++ ".yaml" := by
  intro he
  apply h
  have hd := congrArg String.data he
  rw [String.data_append, String.data_append, String.data_append, String.data_append] at hd
  have h2 := List.append_cancel_right hd
  have h3 := List.append_cancel_left h2
  cases a; cases b; exact congrArg String.mk h3

/-- C6: persisting one manager and two role agents in a single writer
call leaves the manager's file holding a `managed_agents` list with
exactly two entries whose `file` fields are the shared-roles paths of the
two roles written in that call; and when a call writes no role, no
manager file is patched at all.  The two path hypotheses only rule out
the degenerate layout in which `out_dir` itself aliases the shared
`agents/roles` tree. -/
theorem claim_C6_manager_role_linking :
    (∀ (outDir : String) (fs : Fs) (am ar1 ar2 : PyVal) (km k1 k2 : PyDict)
       (nm n1 n2 : String),
      canonicalize_agent_yaml am = .ok (.dict km) →
      dGet km "name" = some (.str nm) →
      canonicalize_agent_yaml ar1 = .ok (.dict k1) →
      dGet k1 "name" = some (.str n1) →
      canonicalize_agent_yaml ar2 = .ok (.dict k2) →
      dGet k2 "name" = some (.str n2) →
      isManagerName nm = true → isManagerName n1 = false → isManagerName n2 = false →
      outDir ++ "/" ++ nm ++ ".yaml" ≠ "agents/roles/" ++ n1 ++ ".yaml" →
      outDir ++ "/" ++ nm ++ ".yaml" ≠ "agents/roles/" ++ n2 ++ ".yaml" →
      ∃ fs1 fs2 : Fs,
        saveAgentList outDir fs [am, ar1, ar2] =
          .ok (fs1, [.dict km, .dict k1, .dict k2]) ∧
        patchManagers [.dict km, .dict k1, .dict k2] outDir fs1 = .ok fs2 ∧
        dGet fs2 (outDir ++ "/" ++ nm ++ ".yaml") =
          some (.dict (dSet km "managed_agents" (.list [
            .dict [("file", .str ("agents/roles/" ++ n1 ++ ".yaml")),
                   ("usage_description",
                     dGetD k1 "description" (.str (n1 ++ " supports the manager.")))],
            .dict [("file", .str ("agents/roles/" ++ n2 ++ ".yaml")),
                   ("usage_description",
                     dGetD k2 "description" (.str (n2 ++ " supports the manager.")))]])))) ∧
    (∀ (outDir : String) (fs : Fs) (saved : List PyVal) (named : List (PyVal × String)),
      saved.mapM (fun a => (savedName a).map (fun n => (a, n))) = .ok named →
      named.all (fun p => isManagerName p.2) = true →
      patchManagers saved outDir fs = .ok fs) := by
  constructor
  · intro outDir fs am ar1 ar2 km k1 k2 nm n1 n2
    intro hcm hnm hc1 hn1 hc2 hn2 hmgr hr1 hr2 hq1 hq2
    have hnmn1 : nm ≠ n1 := by
      intro h; rw [h] at hmgr; rw [hmgr] at hr1; cases hr1
    have hnmn2 : nm ≠ n2 := by
      intro h; rw [h] at hmgr; rw [hmgr] at hr2; cases hr2
    have hne1 : PyVal.dict km ≠ PyVal.dict k1 := by
      intro h
      injection h with h2
      rw [h2] at hnm
      rw [hnm] at hn1
      exact hnmn1 (by cases hn1; rfl)
    have hne2 : PyVal.dict km ≠ PyVal.dict k2 := by
      intro h
      injection h with h2
      rw [h2] at hnm
      rw [hnm] at hn2
      exact hnmn2 (by cases hn2; rfl)
    have hb1 : pyBeq (.dict km) (.dict k1) = false := by
      cases hpb : pyBeq (.dict km) (.dict k1)
      · rfl
      · exact absurd ((pyBeq_iff _ _).mp hpb) hne1
    have hb2 : pyBeq (.dict km) (.dict k2) = false := by
      cases hpb : pyBeq (.dict km) (.dict k2)
      · rfl
      · exact absurd ((pyBeq_iff _ _).mp hpb) hne2
    have hsave1 : saveOneAgent outDir fs am =
        .ok (dSet fs (outDir ++ "/" ++ nm ++ ".yaml") (.dict km), .dict km) := by
      unfold saveOneAgent
      rw [hcm]
      simp [canonNameStr, hnm, hmgr]
    have hsaveR : ∀ (fsx : Fs) (ar : PyVal) (k : PyDict) (n : String),
        canonicalize_agent_yaml ar = .ok (.dict k) → dGet k "name" = some (.str n) →
        isManagerName n = false →
        saveOneAgent outDir fsx ar =
          .ok (dSet (dSet fsx (outDir ++ "/" ++ n ++ ".yaml") (.dict k))
                ("agents/roles/" ++ n ++ ".yaml") (.dict k), .dict k) := by
      intro fsx ar k n hc hn hr
      unfold saveOneAgent
      rw [hc]
      simp [canonNameStr, hn, hr]
    have hlist : saveAgentList outDir fs [am, ar1, ar2] =
        .ok (dSet (dSet (dSet (dSet (dSet fs
              (outDir ++ "/" ++ nm ++ ".yaml") (.dict km))
              (outDir ++ "/" ++ n1 ++ ".yaml") (.dict k1))
              ("agents/roles/" ++ n1 ++ ".yaml") (.dict k1))
              (outDir ++ "/" ++ n2 ++ ".yaml") (.dict k2))
              ("agents/roles/" ++ n2 ++ ".yaml") (.dict k2),
          [.dict km, .dict k1, .dict k2]) := by
      simp [saveAgentList, hsave1, hsaveR _ ar1 k1 n1 hc1 hn1 hr1,
        hsaveR _ ar2 k2 n2 hc2 hn2 hr2]
    have hsn : ∀ (k : PyDict) (n : String), dGet k "name" = some (.str n) →
        savedName (.dict k) = .ok n := by
      intro k n hn
      simp [savedName, hn]
    have hmapM : [PyVal.dict km, PyVal.dict k1, PyVal.dict k2].mapM
        (fun a => (savedName a).map (fun n => (a, n))) =
        .ok [(PyVal.dict km, nm), (PyVal.dict k1, n1), (PyVal.dict k2, n2)] := by
      simp only [List.mapM_cons, List.mapM_nil, hsn km nm hnm, hsn k1 n1 hn1,
        hsn k2 n2 hn2, Except.map, bind, Except.bind, pure, Except.pure]
    have hpatch : patchManagers [PyVal.dict km, PyVal.dict k1, PyVal.dict k2] outDir
        (dSet (dSet (dSet (dSet (dSet fs
              (outDir ++ "/" ++ nm ++ ".yaml") (.dict km))
              (outDir ++ "/" ++ n1 ++ ".yaml") (.dict k1))
              ("agents/roles/" ++ n1 ++ ".yaml") (.dict k1))
              (outDir ++ "/" ++ n2 ++ ".yaml") (.dict k2))
              ("agents/roles/" ++ n2 ++ ".yaml") (.dict k2)) =
        .ok (patchOneManager outDir
          (dSet (dSet (dSet (dSet (dSet fs
              (outDir ++ "/" ++ nm ++ ".yaml") (.dict km))
              (outDir ++ "/" ++ n1 ++ ".yaml") (.dict k1))
              ("agents/roles/" ++ n1 ++ ".yaml") (.dict k1))
              (outDir ++ "/" ++ n2 ++ ".yaml") (.dict k2))
              ("agents/roles/" ++ n2 ++ ".yaml") (.dict k2))
          nm [.dict k1, .dict k2]) := by
      unfold patchManagers
      rw [hmapM]
      simp [hmgr, hr1, hr2, hb1, hb2, (pyBeq_iff (PyVal.dict km) (PyVal.dict km)).mpr rfl]
    have hread : dGet (dSet (dSet (dSet (dSet (dSet fs
              (outDir ++ "/" ++ nm ++ ".yaml") (.dict km))
              (outDir ++ "/" ++ n1 ++ ".yaml") (.dict k1))
              ("agents/roles/" ++ n1 ++ ".yaml") (.dict k1))
              (outDir ++ "/" ++ n2 ++ ".yaml") (.dict k2))
              ("agents/roles/" ++ n2 ++ ".yaml") (.dict k2))
        (outDir ++ "/" ++ nm ++ ".yaml") = some (.dict km) := by
      rw [dGet_dSet_ne _ _ _ _ hq2, dGet_dSet_ne _ _ _ _ (pathNe outDir nm n2 hnmn2),
        dGet_dSet_ne _ _ _ _ hq1, dGet_dSet_ne _ _ _ _ (pathNe outDir nm n1 hnmn1)]
      exact dGet_dSet_self _ _ _
    have hme : ∀ (k : PyDict) (n : String), dGet k "name" = some (.str n) →
        managedEntry (.dict k) =
          some (.dict [("file", .str ("agents/roles/" ++ n ++ ".yaml")),
            ("usage_description",
              dGetD k "description" (.str (n ++ " supports the manager.")))]) := by
      intro k n hn
      simp [managedEntry, hn]
    have hentries : [PyVal.dict k1, PyVal.dict k2].mapM managedEntry =
        some [.dict [("file", .str ("agents/roles/" ++ n1 ++ ".yaml")),
                     ("usage_description",
                       dGetD k1 "description" (.str (n1 ++ " supports the manager.")))],
              .dict [("file", .str ("agents/roles/" ++ n2 ++ ".yaml")),
                     ("usage_description",
                       dGetD k2 "description" (.str (n2 ++ " supports the manager.")))]] := by
      simp only [List.mapM_cons, List.mapM_nil, hme k1 n1 hn1, hme k2 n2 hn2,
        Option.pure_def, Option.bind_eq_bind, Option.some_bind]
    have hfinal : patchOneManager outDir
        (dSet (dSet (dSet (dSet (dSet fs
              (outDir ++ "/" ++ nm ++ ".yaml") (.dict km))
              (outDir ++ "/" ++ n1 ++ ".yaml") (.dict k1))
              ("agents/roles/" ++ n1 ++ ".yaml") (.dict k1))
              (outDir ++ "/" ++ n2 ++ ".yaml") (.dict k2))
              ("agents/roles/" ++ n2 ++ ".yaml") (.dict k2))
        nm [.dict k1, .dict k2] =
        dSet (dSet (dSet (dSet (dSet (dSet fs
              (outDir ++ "/" ++ nm ++ ".yaml") (.dict km))
              (outDir ++ "/" ++ n1 ++ ".yaml") (.dict k1))
              ("agents/roles/" ++ n1 ++ ".yaml") (.dict k1))
              (outDir ++ "/" ++ n2 ++ ".yaml") (.dict k2))
              ("agents/roles/" ++ n2 ++ ".yaml") (.dict k2))
          (outDir ++ "/" ++ nm ++ ".yaml")
          (.dict (dSet km "managed_agents" (.list [
            .dict [("file", .str ("agents/roles/" ++ n1 ++ ".yaml")),
                   ("usage_description",
                     dGetD k1 "description" (.str (n1 ++ " supports the manager.")))],
            .dict [("file", .str ("agents/roles/" ++ n2 ++ ".yaml")),
                   ("usage_description",
                     dGetD k2 "description" (.str (n2 ++ " supports the manager.")))]]))) := by
      unfold patchOneManager
      simp only [hread, hentries]
    refine ⟨_, _, hlist, hpatch, ?_⟩
    rw [hfinal]
    exact dGet_dSet_self _ _ _
  · intro outDir fs saved named hmapM hall
    unfold patchManagers
    rw [hmapM]
    have hmg : named.filter (fun p => isManagerName p.2) = named :=
      List.filter_eq_self.mpr (fun a ha => List.all_eq_true.mp hall a ha)
    have hroles : named.filter
        (fun p => !(named.any (fun m => pyBeq m.1 p.1))) = [] := by
      refine List.filter_eq_nil_iff.mpr ?_
      intro a ha
      have hself : named.any (fun m => pyBeq m.1 a.1) = true :=
        List.any_eq_true.mpr ⟨a, ha, (pyBeq_iff _ _).mpr rfl⟩
      simp [hself]
    simp only [hmg, hroles, List.map_nil]
    simp

/-- C6 witness: one manager and two roles written to `out` in a single
call, evaluated concretely. -/
theorem claim_C6_manager_role_linking_witness :
    ∃ fs1 fs2 : Fs,
      saveAgentList "out" [] [.dict [("name", .str "Team_Manager")],
                              .dict [("name", .str "Role_A")],
                              .dict [("name", .str "Role_B")]] =
        .ok (fs1, [.dict (canonMkKvs "Team_Manager"),
                   .dict (canonMkKvs "Role_A"), .dict (canonMkKvs "Role_B")]) ∧
      patchManagers [.dict (canonMkKvs "Team_Manager"),
                     .dict (canonMkKvs "Role_A"), .dict (canonMkKvs "Role_B")]
        "out" fs1 = .ok fs2 ∧
      dGet fs2 ("out" ++ "/" ++ "Team_Manager" ++ ".yaml") =
        some (.dict (dSet (canonMkKvs "Team_Manager") "managed_agents" (.list [
          .dict [("file", .str ("agents/roles/" ++ "Role_A" ++ ".yaml")),
                 ("usage_description",
                   dGetD (canonMkKvs "Role_A") "description"
                     (.str ("Role_A" ++ " supports the manager.")))],
          .dict [("file", .str ("agents/roles/" ++ "Role_B" ++ ".yaml")),
                 ("usage_description",
                   dGetD (canonMkKvs "Role_B") "description"
                     (.str ("Role_B" ++ " supports the manager.")))]]))) :=
  claim_C6_manager_role_linking.1 "out" []
    (.dict [("name", .str "Team_Manager")])
    (.dict [("name", .str "Role_A")])
    (.dict [("name", .str "Role_B")])
    (canonMkKvs "Team_Manager") (canonMkKvs "Role_A") (canonMkKvs "Role_B")
    "Team_Manager" "Role_A" "Role_B"
    rfl rfl rfl rfl rfl rfl rfl rfl rfl (by decide) (by decide)

/-- C10: when the writer rewrites a manager's file to set
`managed_agents`, the rewritten content is exactly the loaded mapping
with `managed_agents` added or replaced — every other key keeps the
value loaded from the file. -/
theorem claim_C10_patch_frame (outDir nm : String) (fs : Fs) (roles : List PyVal)
    (d : PyDict) (es : List PyVal)
    (hread : dGet fs (outDir ++ "/" ++ nm ++ ".yaml") = some (.dict d))
    (hes : roles.mapM managedEntry = some es) :
    dGet (patchOneManager outDir fs nm roles) (outDir ++ "/" ++ nm ++ ".yaml") =
      some (.dict (dSet d "managed_agents" (.list es))) ∧
    (∀ k, k ≠ "managed_agents" →
      dGet (dSet d "managed_agents" (.list es)) k = dGet d k) ∧
    dGet (dSet d "managed_agents" (.list es)) "managed_agents" = some (.list es) := by
  refine ⟨?_, fun k hk => dGet_dSet_ne d "managed_agents" k (.list es) hk,
    dGet_dSet_self _ _ _⟩
  unfold patchOneManager
  simp only [hread, hes]
  exact dGet_dSet_self _ _ _

/-- C10 witness: patching a concrete manager file that carries extra
keys. -/
theorem claim_C10_patch_frame_witness :
    dGet (patchOneManager "out"
        [("out/M_mgr.yaml", .dict [("name", .str "M_mgr"), ("description", .str "boss")])]
        "M_mgr" [.dict (canonMkKvs "Role_A")])
      ("out" ++ "/" ++ "M_mgr" ++ ".yaml") =
      some (.dict (dSet [("name", .str "M_mgr"), ("description", .str "boss")]
        "managed_agents"
        (.list [.dict [("file", .str "agents/roles/Role_A.yaml"),
                       ("usage_description", .str "")]]))) ∧
    (∀ k, k ≠ "managed_agents" →
      dGet (dSet [("name", .str "M_mgr"), ("description", .str "boss")]
        "managed_agents"
        (.list [.dict [("file", .str "agents/roles/Role_A.yaml"),
                       ("usage_description", .str "")]])) k =
      dGet [("name", .str "M_mgr"), ("description", .str "boss")] k) ∧
    dGet (dSet [("name", .str "M_mgr"), ("description", .str "boss")]
      "managed_agents"
      (.list [.dict [("file", .str "agents/roles/Role_A.yaml"),
                     ("usage_description", .str "")]])) "managed_agents" =
      some (.list [.dict [("file", .str "agents/roles/Role_A.yaml"),
                          ("usage_description", .str "")]]) :=
  claim_C10_patch_frame "out" "M_mgr"
    [("out/M_mgr.yaml", .dict [("name", .str "M_mgr"), ("description", .str "boss")])]
    [.dict (canonMkKvs "Role_A")]
    [("name", .str "M_mgr"), ("description", .str "boss")]
    [.dict [("file", .str "agents/roles/Role_A.yaml"), ("usage_description", .str "")]]
    rfl rfl
